import Mathlib

/-!
Shallow embedding of the AudioInk audio pipeline
(src-tauri/src: core/audio.rs, core/speedup.rs, core/whisper.rs,
commands/transcription.rs) together with proofs checking the
natural-language specification against it.

Machine floats (f32/f64) of the source are modelled as exact rationals:
every property checked here concerns values (timestamp milliseconds,
sample amplitudes, speed factors, durations) whose source computations
are exact in f64 at the stated inputs, or is stated up to the tolerance
the specification itself allows.
-/

namespace AudioInk

/-- models/config.rs line 174: the fixed target sample rate. -/
def WHISPER_SAMPLE_RATE : ℕ := 16000

/-- models/config.rs line 175: chunk duration in seconds (f32 constant 60.0). -/
def CHUNK_DURATION_SECS : ℚ := 60

/-- Rust slice::chunks(n): consecutive slices of n elements each, the last
possibly shorter; an empty slice yields no chunks. (slice::chunks panics on
n = 0; the value returned here for n = 0 is never used, every call site
passes n > 0.) -/
def listChunks {α : Type*} (n : ℕ) : List α → List (List α)
  | [] => []
  | x :: rest =>
    if _h : n = 0 then []
    else ((x :: rest).take n) :: listChunks n ((x :: rest).drop n)
termination_by xs => xs.length
decreasing_by
  simp only [List.length_drop, List.length_cons]
  omega

/-- utils/error.rs: the application's error taxonomy. -/
inductive AudioInkError where
  | Audio (msg : String)
  | Whisper (msg : String)
  | YouTube (msg : String)
  | ModelNotFound (msg : String)
  | ModelDownload (msg : String)
  | UnsupportedFormat (msg : String)
  | FileError (msg : String)
  | Persistence (msg : String)
  | Network (msg : String)
  | Cancelled
  | Internal (msg : String)
deriving DecidableEq

/-- models/transcription.rs AudioInfo; duration_str (a formatted rendering of
duration) is omitted as no claim concerns it. -/
structure AudioInfo where
  duration : ℚ
  channels : ℕ
  sample_rate : ℕ

/-- audio.rs lines 89-97: downmix interleaved samples to mono by averaging
each frame of channel_count samples; mono input is passed through. -/
def downmix (channels : ℕ) (all_samples : List ℚ) : List ℚ :=
  if 1 < channels then
    (listChunks channels all_samples).map (fun chunk => chunk.sum / (channels : ℚ))
  else
    all_samples

/-- audio.rs lines 113-137: linear-interpolation resampling. `as usize` on a
non-negative f64 truncates, i.e. takes the floor. -/
def resample (samples : List ℚ) (from_rate to_rate : ℕ) : List ℚ :=
  if from_rate = to_rate then
    samples
  else
    let ratio : ℚ := (from_rate : ℚ) / (to_rate : ℚ)
    let new_len : ℕ := (⌊(samples.length : ℚ) / ratio⌋).toNat
    (List.range new_len).map (fun (i : ℕ) =>
      let src_idx : ℚ := (i : ℚ) * ratio
      let idx : ℕ := (⌊src_idx⌋).toNat
      let frac : ℚ := src_idx - (idx : ℚ)
      if idx + 1 < samples.length then
        let a := samples.getD idx 0
        let b := samples.getD (idx + 1) 0
        a + (b - a) * frac
      else
        samples.getD idx 0)

/-- audio.rs lines 140-146: split a normalized buffer into chunks of
CHUNK_DURATION_SECS * WHISPER_SAMPLE_RATE samples (the f32 product 960000.0
cast to usize). -/
def split_into_chunks (samples : List ℚ) : List (List ℚ) :=
  let chunk_size : ℕ := (⌊CHUNK_DURATION_SECS * (WHISPER_SAMPLE_RATE : ℚ)⌋).toNat
  listChunks chunk_size samples

/-- audio.rs lines 149-151. -/
def calculate_duration (samples : List ℚ) : ℚ :=
  (samples.length : ℚ) / (WHISPER_SAMPLE_RATE : ℚ)

/-- audio.rs lines 154-157: strictly greater than 120 seconds. -/
def needs_chunking (samples : List ℚ) : Bool :=
  decide (calculate_duration samples > 120)

/-- whisper.rs lines 62-68: transcribe_with_timestamps dispatch. A buffer
needing chunking is processed chunk by chunk via split_into_chunks; otherwise
the whole buffer is transcribed as a single unit. This definition captures
which sample slices reach the engine, in order. -/
def transcriptionChunks (samples : List ℚ) : List (List ℚ) :=
  if needs_chunking samples then split_into_chunks samples else [samples]

/-- Environment a decode run meets: what each fallible step of
audio.rs decode_audio_to_whisper_format would observe for the given path.
The decoded interleaved stream is all_samples with the track's rate and
channel count. -/
structure MediaFile where
  openable : Bool
  open_err : String
  probe_ok : Bool
  probe_err : String
  has_default_track : Bool
  codec_ok : Bool
  codec_err : String
  sample_rate : ℕ
  channels : ℕ
  all_samples : List ℚ

/-- audio.rs lines 19-110: decode, downmix, resample, and report AudioInfo.
Error cases in source order: File::open failure -> FileError; probe failure
(no compatible container reader) -> UnsupportedFormat; no default track ->
Audio; decoder creation failure -> Audio. The packet loop (lines 59-87) only
accumulates samples and cannot fail: end-of-stream breaks the loop and bad
packets are skipped. -/
def decode_audio_to_whisper_format (f : MediaFile) :
    Except AudioInkError (List ℚ × AudioInfo) :=
  if f.openable = false then
    .error (.FileError f.open_err)
  else if f.probe_ok = false then
    .error (.UnsupportedFormat f.probe_err)
  else if f.has_default_track = false then
    .error (.Audio "No se encontro pista de audio")
  else if f.codec_ok = false then
    .error (.Audio f.codec_err)
  else
    let mono_samples := downmix f.channels f.all_samples
    let resampled :=
      if f.sample_rate ≠ WHISPER_SAMPLE_RATE then
        resample mono_samples f.sample_rate WHISPER_SAMPLE_RATE
      else
        mono_samples
    .ok (resampled,
      { duration := (resampled.length : ℚ) / (WHISPER_SAMPLE_RATE : ℚ),
        channels := f.channels,
        sample_rate := f.sample_rate })

/-- utils/platform.rs: the remedy string surfaced when ffmpeg is missing;
its exact text is irrelevant to every claim. -/
def get_ffmpeg_install_instructions : String :=
  "ffmpeg no esta instalado. Por favor instalalo primero."

/-- Environment one apply_audio_speedup call meets: whether find_ffmpeg
locates a binary, whether Command::output() runs, whether the exit status is
success, and the diagnostic strings / temp path involved. -/
structure SpeedupEnv where
  ffmpeg_available : Bool
  exec_runs : Bool
  exec_success : Bool
  exec_err : String
  stderr : String
  temp_output_path : String

/-- Observable outcome of one apply_audio_speedup call: its returned value,
whether find_ffmpeg was consulted, whether the external tool was invoked, and
the temporary output file handed to the tool (none when no invocation
reached the tool). -/
structure SpeedupOutcome where
  result : Except AudioInkError String
  locate_attempted : Bool
  tool_invoked : Bool
  temp_file : Option String

/-- speedup.rs lines 52-99: validate the speed range, pass through factors
within 0.01 of 1.0, then locate and invoke ffmpeg atempo on a fresh temp
path. Float literals 0.5, 2.0, 1.0, 0.01 are modelled by the rationals they
denote. -/
def apply_audio_speedup (env : SpeedupEnv) (input_path : String) (speed : ℚ) :
    SpeedupOutcome :=
  if speed < 1/2 ∨ 2 < speed then
    { result := .error (.Internal ("Speed must be between 0.5 and 2.0, got: " ++ toString speed)),
      locate_attempted := false, tool_invoked := false, temp_file := none }
  else if |speed - 1| < 1/100 then
    { result := .ok input_path,
      locate_attempted := false, tool_invoked := false, temp_file := none }
  else if env.ffmpeg_available = false then
    { result := .error (.Internal get_ffmpeg_install_instructions),
      locate_attempted := true, tool_invoked := false, temp_file := none }
  else if env.exec_runs = false then
    { result := .error (.Internal ("Failed to run ffmpeg: " ++ env.exec_err)),
      locate_attempted := true, tool_invoked := true, temp_file := none }
  else if env.exec_success = false then
    { result := .error (.Internal ("ffmpeg speedup failed: " ++ env.stderr)),
      locate_attempted := true, tool_invoked := true, temp_file := some env.temp_output_path }
  else
    { result := .ok env.temp_output_path,
      locate_attempted := true, tool_invoked := true, temp_file := some env.temp_output_path }

/-- f64::round on the non-negative values arising here (round half away from
zero): floor of x + 1/2. Every product rounded in the source is exactly
representable in f64 (at most 26-bit millisecond significands times 24-bit
f32 speed significands), so the f64 computation equals this exact one. -/
def roundHalfUp (x : ℚ) : ℤ :=
  ⌊x + 1/2⌋

/-- speedup.rs lines 112-114. -/
def adjust_timestamp_for_speed (timestamp_ms : ℤ) (speed : ℚ) : ℤ :=
  roundHalfUp ((timestamp_ms : ℚ) * speed)

/-- Transcript text with its two-digit [HH:MM:SS] timestamp tags identified:
a tag token stands for the substring the regex of transcription.rs line 112
would match, plain tokens for the rest of the text. -/
inductive TextToken where
  | tag (h m s : ℕ)
  | plain (text : String)
deriving DecidableEq

/-- whisper.rs lines 267-273: format milliseconds as an HH:MM:SS tag (i64
division on the non-negative values arising here). -/
def format_timestamp_ms (ms : ℤ) : TextToken :=
  let total_seconds : ℕ := ms.toNat / 1000
  .tag (total_seconds / 3600) (total_seconds % 3600 / 60) (total_seconds % 60)

/-- Milliseconds denoted by an [HH:MM:SS] tag (transcription.rs line 120). -/
def tag_to_ms (h m s : ℕ) : ℕ :=
  (h * 3600 + m * 60 + s) * 1000

/-- transcription.rs lines 114-131: the regex replacement applied to one
matched tag: parse, convert to milliseconds, multiply by the speed factor,
round, and reformat. -/
def adjust_tag (speed : ℚ) (h m s : ℕ) : TextToken :=
  let total_ms : ℤ := ((h : ℤ) * 3600 + (m : ℤ) * 60 + (s : ℤ)) * 1000
  let adjusted_ms : ℤ := roundHalfUp ((total_ms : ℚ) * speed)
  let total_secs : ℕ := adjusted_ms.toNat / 1000
  .tag (total_secs / 3600) (total_secs % 3600 / 60) (total_secs % 60)

/-- transcription.rs lines 109-133: rewrite every tag the regex
matches (exactly two digits per field, hence the < 100 guards), leaving
everything else unchanged. -/
def adjust_timestamps_in_text (speed : ℚ) (text : List TextToken) : List TextToken :=
  text.map (fun t =>
    match t with
    | .tag h m s => if h < 100 ∧ m < 100 ∧ s < 100 then adjust_tag speed h m s else .tag h m s
    | .plain str => .plain str)

/-- transcription.rs lines 297-300: after transcription, rewrite timestamps
exactly when the speed factor exceeds 1.01 and timestamps were requested. -/
def apply_timestamp_speed_fixup (speed : ℚ) (include_timestamps : Bool)
    (text : List TextToken) : List TextToken :=
  if 101/100 < speed ∧ include_timestamps = true then
    adjust_timestamps_in_text speed text
  else
    text

/-- models/config.rs WhisperModel. -/
inductive WhisperModel where
  | Tiny
  | Base
  | Small
  | Medium
  | Large
  | LargeV3Turbo
deriving DecidableEq

/-- models/config.rs lines 80-91: Display impl. -/
def WhisperModel.displayName : WhisperModel → String
  | .Tiny => "tiny"
  | .Base => "base"
  | .Small => "small"
  | .Medium => "medium"
  | .Large => "large"
  | .LargeV3Turbo => "large-v3-turbo"

/-- whisper.rs WhisperEngine, modelling its observable state: the name of
the loaded model (the context handle carries no further claim-relevant
state). -/
structure WhisperEngine where
  model_name : String
deriving DecidableEq

/-- whisper.rs lines 16-37: engine construction. `downloaded` abstracts
is_model_downloaded, `load_ok` whether WhisperContext::new_with_params
accepts the artifact. -/
def WhisperEngine.new (downloaded load_ok : WhisperModel → Bool)
    (model : WhisperModel) : Except AudioInkError WhisperEngine :=
  if downloaded model = false then
    .error (.ModelNotFound ("Modelo '" ++ model.displayName ++ "' no esta descargado."))
  else if load_ok model = false then
    .error (.Whisper "Error al cargar modelo")
  else
    .ok { model_name := model.displayName }

/-- Observable outcome of one AppState::get_or_create_engine call: the slot
contents afterwards, whether a WhisperEngine::new load was attempted, and
the returned value. -/
structure EngineCallResult where
  state : Option (WhisperModel × WhisperEngine)
  load_attempted : Bool
  result : Except AudioInkError Unit

/-- transcription.rs lines 30-46: if the slot already holds the requested
model identity, return immediately; otherwise construct a new engine and
replace the slot (left unchanged when construction fails). -/
def get_or_create_engine (downloaded load_ok : WhisperModel → Bool)
    (st : Option (WhisperModel × WhisperEngine)) (model : WhisperModel) :
    EngineCallResult :=
  match st with
  | some (current, e) =>
    if current = model then
      { state := some (current, e), load_attempted := false, result := .ok () }
    else
      match WhisperEngine.new downloaded load_ok model with
      | .ok engine => { state := some (model, engine), load_attempted := true, result := .ok () }
      | .error err => { state := some (current, e), load_attempted := true, result := .error err }
  | none =>
    match WhisperEngine.new downloaded load_ok model with
    | .ok engine => { state := some (model, engine), load_attempted := true, result := .ok () }
    | .error err => { state := none, load_attempted := true, result := .error err }

/-- Number of engines resident in the single slot. -/
def engineCount (st : Option (WhisperModel × WhisperEngine)) : ℕ :=
  match st with
  | none => 0
  | some _ => 1

/-- Slot state after a sequence of get_or_create_engine calls. -/
def run_engine_calls (downloaded load_ok : WhisperModel → Bool)
    (st : Option (WhisperModel × WhisperEngine)) :
    List WhisperModel → Option (WhisperModel × WhisperEngine)
  | [] => st
  | m :: rest =>
    run_engine_calls downloaded load_ok
      (get_or_create_engine downloaded load_ok st m).state rest

/-- whisper.rs lines 112-135: the chunk loop of
transcribe_chunked_with_timestamps, starting at chunk index i. `seg`
abstracts transcribe_segment_with_options applied to (chunk, time offset in
ms); its failures are the Whisper-wrapped engine errors of lines 172-205.
Each chunk's offset is i * 60000 (CHUNK_DURATION_SECS * 1000 as i64); a
segment failure aborts the remaining chunks. The loop consults no
cancellation signal. -/
def transcribe_chunks_loop (seg : List ℚ → ℤ → Except String String) :
    List (List ℚ) → ℕ → Except AudioInkError (List String)
  | [], _ => .ok []
  | chunk :: rest, i =>
    match seg chunk ((i : ℤ) * 60000) with
    | .error e => .error (.Whisper e)
    | .ok text =>
      match transcribe_chunks_loop seg rest (i + 1) with
      | .error err => .error err
      | .ok texts => .ok (text :: texts)

/-- whisper.rs lines 87-147: chunked transcription joins the per-chunk texts
with a newline when timestamps were requested, else with a space. -/
def transcribe_chunked_with_timestamps (seg : List ℚ → ℤ → Except String String)
    (samples : List ℚ) (include_timestamps : Bool) : Except AudioInkError String :=
  match transcribe_chunks_loop seg (split_into_chunks samples) 0 with
  | .error e => .error e
  | .ok texts =>
    .ok (String.intercalate (if include_timestamps then "\n" else " ") texts)

theorem listChunks_nil {α : Type*} (n : ℕ) : listChunks n ([] : List α) = [] := by
  simp [listChunks]

theorem listChunks_cons_eq {α : Type*} (n : ℕ) (hn : 0 < n) (xs : List α) (hxs : xs ≠ []) :
    listChunks n xs = xs.take n :: listChunks n (xs.drop n) := by
  cases xs with
  | nil => exact absurd rfl hxs
  | cons x rest =>
    rw [listChunks]
    rw [dif_neg (by omega)]

/-- Concatenating the chunks in order reproduces the original list. -/
theorem listChunks_join {α : Type*} (n : ℕ) (hn : 0 < n) (xs : List α) :
    (listChunks n xs).flatten = xs := by
  have H : ∀ (len : ℕ) (ys : List α), ys.length ≤ len → (listChunks n ys).flatten = ys := by
    intro len
    induction len with
    | zero =>
      intro ys hys
      have h0 : ys = [] := List.length_eq_zero.mp (Nat.le_zero.mp hys)
      subst h0
      simp [listChunks_nil]
    | succ len ih =>
      intro ys hys
      by_cases hnil : ys = []
      · subst hnil
        simp [listChunks_nil]
      · have hpos : 0 < ys.length := List.length_pos.mpr hnil
        have hdrop : (ys.drop n).length ≤ len := by
          simp only [List.length_drop]
          omega
        rw [listChunks_cons_eq n hn ys hnil, List.flatten_cons, ih (ys.drop n) hdrop,
          List.take_append_drop]
  exact H xs.length xs le_rfl

/-- The number of chunks is the ceiling of length / n. -/
theorem listChunks_length {α : Type*} (n : ℕ) (hn : 0 < n) (xs : List α) :
    (listChunks n xs).length = (xs.length + n - 1) / n := by
  have H : ∀ (len : ℕ) (ys : List α), ys.length ≤ len →
      (listChunks n ys).length = (ys.length + n - 1) / n := by
    intro len
    induction len with
    | zero =>
      intro ys hys
      have h0 : ys = [] := List.length_eq_zero.mp (Nat.le_zero.mp hys)
      subst h0
      simp only [listChunks_nil, List.length_nil, Nat.zero_add]
      rw [Nat.div_eq_of_lt (by omega)]
    | succ len ih =>
      intro ys hys
      by_cases hnil : ys = []
      · subst hnil
        simp only [listChunks_nil, List.length_nil, Nat.zero_add]
        rw [Nat.div_eq_of_lt (by omega)]
      · have hpos : 0 < ys.length := List.length_pos.mpr hnil
        have hdrop : (ys.drop n).length ≤ len := by
          simp only [List.length_drop]
          omega
        rw [listChunks_cons_eq n hn ys hnil, List.length_cons, ih _ hdrop]
        simp only [List.length_drop]
        rcases le_or_lt n ys.length with hle | hlt
        · have h1 : ys.length - n + n - 1 = ys.length - 1 := by omega
          have h2 : ys.length + n - 1 = (ys.length - 1) + n := by omega
          rw [h1, h2, Nat.add_div_right _ hn]
        · have h1 : (ys.length - n + n - 1) / n = 0 := Nat.div_eq_of_lt (by omega)
          have h2 : ys.length + n - 1 = (ys.length - 1) + n := by omega
          have h3 : (ys.length - 1) / n = 0 := Nat.div_eq_of_lt (by omega)
          rw [h1, h2, Nat.add_div_right _ hn, h3]
  exact H xs.length xs le_rfl

/-- The i-th chunk is the slice of n elements starting at offset i * n. -/
theorem listChunks_getElem? {α : Type*} (n : ℕ) (hn : 0 < n) :
    ∀ (i : ℕ) (xs : List α), i < (listChunks n xs).length →
      (listChunks n xs)[i]? = some ((xs.drop (i * n)).take n) := by
  intro i
  induction i with
  | zero =>
    intro xs hi
    have hnil : xs ≠ [] := by
      intro h
      subst h
      simp [listChunks_nil] at hi
    rw [listChunks_cons_eq n hn xs hnil]
    simp
  | succ i ih =>
    intro xs hi
    have hnil : xs ≠ [] := by
      intro h
      subst h
      simp [listChunks_nil] at hi
    rw [listChunks_cons_eq n hn xs hnil] at hi ⊢
    simp only [List.length_cons] at hi
    simp only [List.getElem?_cons_succ]
    rw [ih (xs.drop n) (by omega), List.drop_drop]
    have harith : n + i * n = (i + 1) * n := by ring
    rw [harith]

/-- Cast form of the ceiling of a natural division: (a + n - 1) / n in ℕ is
the rational ceiling of a / n. -/
theorem natCeilDiv_cast (a n : ℕ) (hn : 0 < n) :
    (((a + n - 1) / n : ℕ) : ℤ) = ⌈(a : ℚ) / (n : ℚ)⌉ := by
  have hnQ : (0 : ℚ) < (n : ℚ) := by exact_mod_cast hn
  set m : ℕ := (a + n - 1) / n with hm
  have h1 : m * n ≤ a + n - 1 := Nat.div_mul_le_self _ _
  have h2 : a + n - 1 < (m + 1) * n := (Nat.div_lt_iff_lt_mul hn).mp (Nat.lt_succ_self m)
  rw [Nat.succ_mul] at h2
  obtain ⟨t, ht⟩ : ∃ t, m * n = t := ⟨_, rfl⟩
  rw [ht] at h1 h2
  have key1 : t < a + n := by omega
  have key2 : a ≤ t := by omega
  rw [eq_comm, Int.ceil_eq_iff]
  have hmnq : (m : ℚ) * (n : ℚ) = (t : ℚ) := by exact_mod_cast ht
  constructor
  · rw [lt_div_iff₀ hnQ]
    have c1 : (t : ℚ) < (a : ℚ) + (n : ℚ) := by exact_mod_cast key1
    push_cast
    linarith [hmnq, c1]
  · rw [div_le_iff₀ hnQ]
    have c2 : (a : ℚ) ≤ (t : ℚ) := by exact_mod_cast key2
    push_cast
    linarith [hmnq, c2]

theorem chunk_size_eval :
    (⌊CHUNK_DURATION_SECS * (WHISPER_SAMPLE_RATE : ℚ)⌋).toNat = 960000 := by
  have h : ⌊CHUNK_DURATION_SECS * (WHISPER_SAMPLE_RATE : ℚ)⌋ = 960000 := by
    norm_num [CHUNK_DURATION_SECS, WHISPER_SAMPLE_RATE]
  rw [h]
  rfl

theorem split_into_chunks_eq (samples : List ℚ) :
    split_into_chunks samples = listChunks 960000 samples := by
  simp only [split_into_chunks]
  rw [chunk_size_eval]

/-- C2: concatenating the chunks in order reproduces the buffer; the
chunking threshold is strictly greater than 120 seconds (equivalently,
strictly more than 120 * 16000 samples); when chunking is needed the chunk
count is the ceiling of duration / chunk duration; when it is not, the
transcription dispatch processes the whole buffer as exactly one chunk. -/
theorem chunking_partition_spec (samples : List ℚ) :
    (split_into_chunks samples).flatten = samples ∧
    needs_chunking samples = decide (120 * WHISPER_SAMPLE_RATE < samples.length) ∧
    (needs_chunking samples = true →
      ((split_into_chunks samples).length : ℤ) =
        ⌈calculate_duration samples / CHUNK_DURATION_SECS⌉) ∧
    (needs_chunking samples = false → transcriptionChunks samples = [samples]) := by
  refine ⟨?_, ?_, ?_, ?_⟩
  · rw [split_into_chunks_eq]
    exact listChunks_join 960000 (by norm_num) samples
  · unfold needs_chunking calculate_duration
    rw [decide_eq_decide]
    rw [gt_iff_lt, lt_div_iff₀ (by norm_num [WHISPER_SAMPLE_RATE])]
    unfold WHISPER_SAMPLE_RATE
    constructor
    · intro hq
      exact_mod_cast hq
    · intro hq
      exact_mod_cast hq
  · intro _
    rw [split_into_chunks_eq, listChunks_length 960000 (by norm_num)]
    have hdur : calculate_duration samples / CHUNK_DURATION_SECS =
        (samples.length : ℚ) / ((960000 : ℕ) : ℚ) := by
      unfold calculate_duration CHUNK_DURATION_SECS WHISPER_SAMPLE_RATE
      rw [div_div]
      norm_num
    rw [hdur, ← natCeilDiv_cast samples.length 960000 (by norm_num)]
  · intro hfalse
    unfold transcriptionChunks
    rw [hfalse]
    simp

/-- C4: for an interleaved multi-channel input (a whole number of frames),
downmix yields one output sample per frame (duration, measured in frames,
is unchanged), and each output sample is the arithmetic mean of the
channel_count samples of its frame. -/
theorem downmix_mean_spec (C : ℕ) (s : List ℚ) (hC : 1 < C) (hdvd : C ∣ s.length) :
    (downmix C s).length = s.length / C ∧
    ∀ i, i < s.length / C →
      ((s.drop (i * C)).take C).length = C ∧
      (downmix C s)[i]? =
        some (((s.drop (i * C)).take C).sum /
          ((((s.drop (i * C)).take C).length : ℕ) : ℚ)) := by
  obtain ⟨q, hq⟩ := hdvd
  have hC0 : 0 < C := by omega
  have hceil : (s.length + C - 1) / C = s.length / C := by
    rw [hq]
    have h1 : C * q + C - 1 = C * q + (C - 1) := by omega
    rw [h1, Nat.mul_add_div hC0, Nat.div_eq_of_lt (by omega),
      Nat.mul_div_cancel_left _ hC0]
    omega
  have hchunks : (listChunks C s).length = s.length / C := by
    rw [listChunks_length C hC0, hceil]
  have hlen : (downmix C s).length = s.length / C := by
    unfold downmix
    rw [if_pos hC, List.length_map, hchunks]
  refine ⟨hlen, fun i hi => ?_⟩
  have hqdiv : s.length / C = q := by
    rw [hq, Nat.mul_div_cancel_left _ hC0]
  have hiC : i * C + C ≤ s.length := by
    rw [hqdiv] at hi
    calc i * C + C = (i + 1) * C := by ring
    _ ≤ q * C := Nat.mul_le_mul_right C (by omega)
    _ = C * q := Nat.mul_comm _ _
    _ = s.length := hq.symm
  have hframe : ((s.drop (i * C)).take C).length = C := by
    rw [List.length_take, List.length_drop]
    omega
  refine ⟨hframe, ?_⟩
  unfold downmix
  rw [if_pos hC, List.getElem?_map, listChunks_getElem? C hC0 i s (by rw [hchunks]; exact hi)]
  rw [hframe]
  rfl

/-- Witness for C4: stereo buffer [1, 3, 5, 7] downmixes to the two frame
means. -/
theorem downmix_mean_spec_witness :
    (downmix 2 ([1, 3, 5, 7] : List ℚ)).length = ([1, 3, 5, 7] : List ℚ).length / 2 ∧
    ∀ i, i < ([1, 3, 5, 7] : List ℚ).length / 2 →
      ((([1, 3, 5, 7] : List ℚ).drop (i * 2)).take 2).length = 2 ∧
      (downmix 2 ([1, 3, 5, 7] : List ℚ))[i]? =
        some (((([1, 3, 5, 7] : List ℚ).drop (i * 2)).take 2).sum /
          ((((([1, 3, 5, 7] : List ℚ).drop (i * 2)).take 2).length : ℕ) : ℚ)) :=
  downmix_mean_spec 2 [1, 3, 5, 7] (by norm_num) ⟨2, rfl⟩

/-- C10: when the interleaved sample count is not a multiple of the channel
count, the downmixed length is the ceiling of count / channels, the final
frame holds only count mod channels samples, yet its output sample divides
the frame sum by the full channel count — so its magnitude is at most that
of the true mean of the samples present. -/
theorem downmix_short_last_frame (C : ℕ) (s : List ℚ) (hC : 1 < C)
    (hr : s.length % C ≠ 0) :
    ((downmix C s).length : ℤ) = ⌈(s.length : ℚ) / ((C : ℕ) : ℚ)⌉ ∧
    ((s.drop (s.length / C * C)).take C).length = s.length % C ∧
    (downmix C s).getLast? =
      some (((s.drop (s.length / C * C)).take C).sum / (C : ℚ)) ∧
    |((s.drop (s.length / C * C)).take C).sum / (C : ℚ)| ≤
      |((s.drop (s.length / C * C)).take C).sum /
        ((((s.drop (s.length / C * C)).take C).length : ℕ) : ℚ)| := by
  have hC0 : 0 < C := by omega
  have hdm := Nat.div_add_mod s.length C
  have hdm2 : s.length / C * C + s.length % C = s.length := by
    rw [Nat.mul_comm] at hdm
    exact hdm
  have hdm3 := Nat.div_add_mod s.length C
  have hmlt : s.length % C < C := Nat.mod_lt _ hC0
  have hlen : (downmix C s).length = (s.length + C - 1) / C := by
    unfold downmix
    rw [if_pos hC, List.length_map, listChunks_length C hC0]
  have hceil : (s.length + C - 1) / C = s.length / C + 1 := by
    have h1 : s.length + C - 1 = C * (s.length / C) + (s.length % C + C - 1) := by omega
    rw [h1, Nat.mul_add_div hC0]
    have h2 : (s.length % C + C - 1) / C = 1 :=
      Nat.div_eq_of_lt_le (by omega) (by omega)
    rw [h2]
  have hframe : ((s.drop (s.length / C * C)).take C).length = s.length % C := by
    rw [List.length_take, List.length_drop]
    omega
  refine ⟨?_, hframe, ?_, ?_⟩
  · rw [hlen]
    exact natCeilDiv_cast s.length C hC0
  · rw [List.getLast?_eq_getElem?, hlen, hceil]
    have hidx : s.length / C + 1 - 1 = s.length / C := by simp
    rw [hidx]
    unfold downmix
    rw [if_pos hC, List.getElem?_map,
      listChunks_getElem? C hC0 (s.length / C) s
        (by rw [listChunks_length C hC0, hceil]; exact Nat.lt_succ_self _)]
    rfl
  · rw [hframe]
    have hsum := abs_nonneg (((s.drop (s.length / C * C)).take C).sum)
    rw [abs_div, abs_div, abs_of_pos (show (0 : ℚ) < (C : ℚ) by exact_mod_cast hC0),
      abs_of_pos (show (0 : ℚ) < ((s.length % C : ℕ) : ℚ) by exact_mod_cast Nat.pos_of_ne_zero hr)]
    gcongr

/-- Witness for C10 at two channels and three interleaved samples: two
output samples, the last being 1 / 2 (the lone final sample divided by the
full channel count). -/
theorem downmix_short_last_frame_witness :
    ((downmix 2 ([1, 1, 1] : List ℚ)).length : ℤ) =
      ⌈(([1, 1, 1] : List ℚ).length : ℚ) / ((2 : ℕ) : ℚ)⌉ ∧
    ((([1, 1, 1] : List ℚ).drop (([1, 1, 1] : List ℚ).length / 2 * 2)).take 2).length =
      ([1, 1, 1] : List ℚ).length % 2 ∧
    (downmix 2 ([1, 1, 1] : List ℚ)).getLast? =
      some (((([1, 1, 1] : List ℚ).drop (([1, 1, 1] : List ℚ).length / 2 * 2)).take 2).sum / (2 : ℚ)) ∧
    |((([1, 1, 1] : List ℚ).drop (([1, 1, 1] : List ℚ).length / 2 * 2)).take 2).sum / (2 : ℚ)| ≤
      |((([1, 1, 1] : List ℚ).drop (([1, 1, 1] : List ℚ).length / 2 * 2)).take 2).sum /
        ((((([1, 1, 1] : List ℚ).drop (([1, 1, 1] : List ℚ).length / 2 * 2)).take 2).length : ℕ) : ℚ)| :=
  downmix_short_last_frame 2 [1, 1, 1] (by norm_num) (by decide)

/-- C5: for a source rate different from the 16000 Hz target, the output
sample count is within 1 of floor(N / (R / 16000)) (it is in fact equal),
and output sample i reads source index i * ratio, linearly interpolating
between the floor and ceil neighbouring source samples by the fractional
part, falling back to the nearest valid sample, or 0 past the end. -/
theorem resample_length_and_values (samples : List ℚ) (R : ℕ)
    (hR : R ≠ WHISPER_SAMPLE_RATE) (hpos : 0 < R) :
    (((resample samples R WHISPER_SAMPLE_RATE).length : ℤ) -
        ⌊(samples.length : ℚ) / ((R : ℚ) / (WHISPER_SAMPLE_RATE : ℚ))⌋).natAbs ≤ 1 ∧
    ∀ i, i < (resample samples R WHISPER_SAMPLE_RATE).length →
      (resample samples R WHISPER_SAMPLE_RATE)[i]? =
        some (
          let src : ℚ := (i : ℚ) * ((R : ℚ) / (WHISPER_SAMPLE_RATE : ℚ))
          let j : ℕ := (⌊src⌋).toNat
          if j + 1 < samples.length then
            (1 - Int.fract src) * samples.getD j 0 + Int.fract src * samples.getD (j + 1) 0
          else
            samples.getD j 0) := by
  have hrateQ : (0 : ℚ) < ((WHISPER_SAMPLE_RATE : ℕ) : ℚ) := by
    norm_num [WHISPER_SAMPLE_RATE]
  have hratio : (0 : ℚ) ≤ (R : ℚ) / ((WHISPER_SAMPLE_RATE : ℕ) : ℚ) :=
    div_nonneg (Nat.cast_nonneg R) (le_of_lt hrateQ)
  unfold resample
  rw [if_neg hR]
  constructor
  · rw [List.length_map, List.length_range]
    have hfl : (0 : ℤ) ≤ ⌊(samples.length : ℚ) / ((R : ℚ) / ((WHISPER_SAMPLE_RATE : ℕ) : ℚ))⌋ :=
      Int.floor_nonneg.mpr (div_nonneg (Nat.cast_nonneg _) hratio)
    rw [Int.toNat_of_nonneg hfl]
    simp
  · intro i hi
    rw [List.length_map, List.length_range] at hi
    rw [List.getElem?_map, List.getElem?_range hi]
    simp only [Option.map_some']
    congr 1
    have hsrc : (0 : ℚ) ≤ (i : ℚ) * ((R : ℚ) / ((WHISPER_SAMPLE_RATE : ℕ) : ℚ)) :=
      mul_nonneg (Nat.cast_nonneg i) hratio
    have hfloor :
        (((⌊(i : ℚ) * ((R : ℚ) / ((WHISPER_SAMPLE_RATE : ℕ) : ℚ))⌋).toNat : ℕ) : ℚ) =
          ((⌊(i : ℚ) * ((R : ℚ) / ((WHISPER_SAMPLE_RATE : ℕ) : ℚ))⌋ : ℤ) : ℚ) := by
      exact_mod_cast congrArg (fun z : ℤ => (z : ℚ))
        (Int.toNat_of_nonneg (Int.floor_nonneg.mpr hsrc))
    simp only [Int.fract]
    split
    · rw [hfloor]
      ring
    · rfl

/-- Witness for C5: two samples upsampled from 8000 Hz to 16000 Hz. -/
theorem resample_length_and_values_witness :
    ((((resample ([0, 1] : List ℚ) 8000 WHISPER_SAMPLE_RATE).length : ℤ) -
        ⌊((([0, 1] : List ℚ).length : ℚ) /
          (((8000 : ℕ) : ℚ) / (WHISPER_SAMPLE_RATE : ℚ)))⌋).natAbs ≤ 1) ∧
    (∀ i, i < (resample ([0, 1] : List ℚ) 8000 WHISPER_SAMPLE_RATE).length →
      (resample ([0, 1] : List ℚ) 8000 WHISPER_SAMPLE_RATE)[i]? =
        some (
          let src : ℚ := (i : ℚ) * (((8000 : ℕ) : ℚ) / (WHISPER_SAMPLE_RATE : ℚ))
          let j : ℕ := (⌊src⌋).toNat
          if j + 1 < ([0, 1] : List ℚ).length then
            (1 - Int.fract src) * ([0, 1] : List ℚ).getD j 0 +
              Int.fract src * ([0, 1] : List ℚ).getD (j + 1) 0
          else
            ([0, 1] : List ℚ).getD j 0)) :=
  resample_length_and_values [0, 1] 8000 (by decide) (by decide)

/-- C7 (amended): decode returns FileError exactly when the path cannot be
opened; UnsupportedFormat exactly when it opens but probing finds no
compatible container reader; an Audio error exactly when it opens and probes
but either no audio track exists or no codec decoder can be created for the
track; in every remaining case it reaches end-of-stream and returns Ok. -/
theorem decode_error_classification (f : MediaFile) :
    ((∃ msg, decode_audio_to_whisper_format f = .error (.FileError msg)) ↔
      f.openable = false) ∧
    ((∃ msg, decode_audio_to_whisper_format f = .error (.UnsupportedFormat msg)) ↔
      f.openable = true ∧ f.probe_ok = false) ∧
    ((∃ msg, decode_audio_to_whisper_format f = .error (.Audio msg)) ↔
      f.openable = true ∧ f.probe_ok = true ∧
        (f.has_default_track = false ∨ f.codec_ok = false)) ∧
    (f.openable = true → f.probe_ok = true → f.has_default_track = true →
      f.codec_ok = true → ∃ v, decode_audio_to_whisper_format f = .ok v) := by
  rcases f with ⟨op, oerr, pr, perr, tr, co, cerr, sr, ch, smp⟩
  unfold decode_audio_to_whisper_format
  cases op <;> cases pr <;> cases tr <;> cases co <;> simp

/-- C7 counterexample: a file that opens, probes, and has a default audio
track still yields an Audio error when no codec decoder can be created for
the track — the claim reserves Audio errors for files with no audio track
at all and promises Ok in every other case. -/
theorem decode_error_counterexample :
    decode_audio_to_whisper_format
        { openable := true, open_err := "", probe_ok := true, probe_err := "",
          has_default_track := true, codec_ok := false,
          codec_err := "unsupported codec", sample_rate := 16000, channels := 1,
          all_samples := [] } =
      .error (.Audio "unsupported codec") ∧
    MediaFile.has_default_track
        { openable := true, open_err := "", probe_ok := true, probe_err := "",
          has_default_track := true, codec_ok := false,
          codec_err := "unsupported codec", sample_rate := 16000, channels := 1,
          all_samples := [] } = true :=
  ⟨rfl, rfl⟩

/-- C8: a speed factor outside [0.5, 2.0] is rejected with an error before
find_ffmpeg is consulted, before any tool invocation, and before any
temporary output file exists. -/
theorem speedup_rejects_out_of_range (env : SpeedupEnv) (input_path : String)
    (speed : ℚ) (h : speed < 1/2 ∨ 2 < speed) :
    (∃ msg, (apply_audio_speedup env input_path speed).result = .error (.Internal msg)) ∧
    (apply_audio_speedup env input_path speed).locate_attempted = false ∧
    (apply_audio_speedup env input_path speed).tool_invoked = false ∧
    (apply_audio_speedup env input_path speed).temp_file = none := by
  unfold apply_audio_speedup
  rw [if_pos h]
  exact ⟨⟨_, rfl⟩, rfl, rfl, rfl⟩

/-- Witness for C8 at the claim's two examples, 0.4 and 2.5. -/
theorem speedup_rejects_out_of_range_witness :
    ((∃ msg, (apply_audio_speedup ⟨true, true, true, "", "", "t.wav"⟩ "in.wav"
        (2/5)).result = .error (.Internal msg)) ∧
      (apply_audio_speedup ⟨true, true, true, "", "", "t.wav"⟩ "in.wav"
        (2/5)).locate_attempted = false ∧
      (apply_audio_speedup ⟨true, true, true, "", "", "t.wav"⟩ "in.wav"
        (2/5)).tool_invoked = false ∧
      (apply_audio_speedup ⟨true, true, true, "", "", "t.wav"⟩ "in.wav"
        (2/5)).temp_file = none) ∧
    ((∃ msg, (apply_audio_speedup ⟨true, true, true, "", "", "t.wav"⟩ "in.wav"
        (5/2)).result = .error (.Internal msg)) ∧
      (apply_audio_speedup ⟨true, true, true, "", "", "t.wav"⟩ "in.wav"
        (5/2)).locate_attempted = false ∧
      (apply_audio_speedup ⟨true, true, true, "", "", "t.wav"⟩ "in.wav"
        (5/2)).tool_invoked = false ∧
      (apply_audio_speedup ⟨true, true, true, "", "", "t.wav"⟩ "in.wav"
        (5/2)).temp_file = none) :=
  ⟨speedup_rejects_out_of_range _ _ _ (Or.inl (by norm_num)),
   speedup_rejects_out_of_range _ _ _ (Or.inr (by norm_num))⟩

/-- C9: a speed factor within 0.01 of 1.0 is a pure pass-through: the call
returns the identical input path, consults no tool, invokes nothing, and
creates no temporary file. -/
theorem speedup_noop_passthrough (env : SpeedupEnv) (input_path : String)
    (speed : ℚ) (h : |speed - 1| < 1/100) :
    apply_audio_speedup env input_path speed =
      { result := .ok input_path, locate_attempted := false,
        tool_invoked := false, temp_file := none } := by
  have hb := abs_lt.mp h
  unfold apply_audio_speedup
  rw [if_neg, if_pos h]
  push_neg
  constructor
  · linarith [hb.1]
  · linarith [hb.2]

/-- Witness for C9 at speed exactly 1. -/
theorem speedup_noop_passthrough_witness :
    apply_audio_speedup ⟨true, true, true, "", "", "t.wav"⟩ "in.wav" 1 =
      { result := .ok "in.wav", locate_attempted := false,
        tool_invoked := false, temp_file := none } :=
  speedup_noop_passthrough ⟨true, true, true, "", "", "t.wav"⟩ "in.wav" 1 (by norm_num)

theorem engine_new_ok (downloaded load_ok : WhisperModel → Bool) (m : WhisperModel)
    (hd : downloaded m = true) (hl : load_ok m = true) :
    WhisperEngine.new downloaded load_ok m = .ok { model_name := m.displayName } := by
  unfold WhisperEngine.new
  rw [hd, hl]
  simp

theorem get_or_create_state_after (downloaded load_ok : WhisperModel → Bool)
    (st : Option (WhisperModel × WhisperEngine)) (m : WhisperModel)
    (hd : downloaded m = true) (hl : load_ok m = true) :
    ∃ e, (get_or_create_engine downloaded load_ok st m).state = some (m, e) := by
  rcases st with _ | ⟨current, e⟩
  · simp only [get_or_create_engine]
    rw [engine_new_ok downloaded load_ok m hd hl]
    exact ⟨_, rfl⟩
  · simp only [get_or_create_engine]
    by_cases hc : current = m
    · subst hc
      rw [if_pos rfl]
      exact ⟨e, rfl⟩
    · rw [if_neg hc, engine_new_ok downloaded load_ok m hd hl]
      exact ⟨_, rfl⟩

/-- C3: the cache slot holds at most one engine after any call sequence;
two consecutive calls for the same (downloadable, loadable) identity attempt
at most one load — the second returns immediately with the slot unchanged;
two calls for distinct identities leave exactly one resident engine keyed by
the second identity. -/
theorem engine_cache_spec (downloaded load_ok : WhisperModel → Bool)
    (st : Option (WhisperModel × WhisperEngine)) (m m1 m2 : WhisperModel)
    (hd : downloaded m = true) (hl : load_ok m = true) (h12 : m1 ≠ m2)
    (hd2 : downloaded m2 = true) (hl2 : load_ok m2 = true) :
    (∀ (calls : List WhisperModel) (st0 : Option (WhisperModel × WhisperEngine)),
      engineCount (run_engine_calls downloaded load_ok st0 calls) ≤ 1) ∧
    ((get_or_create_engine downloaded load_ok
        (get_or_create_engine downloaded load_ok st m).state m).load_attempted = false ∧
      (get_or_create_engine downloaded load_ok
        (get_or_create_engine downloaded load_ok st m).state m).state =
        (get_or_create_engine downloaded load_ok st m).state ∧
      (get_or_create_engine downloaded load_ok
        (get_or_create_engine downloaded load_ok st m).state m).result = .ok ()) ∧
    ((get_or_create_engine downloaded load_ok
        (get_or_create_engine downloaded load_ok st m1).state m2).state.map Prod.fst =
        some m2 ∧
      engineCount (get_or_create_engine downloaded load_ok
        (get_or_create_engine downloaded load_ok st m1).state m2).state = 1) := by
  refine ⟨?_, ?_, ?_⟩
  · intro calls st0
    cases run_engine_calls downloaded load_ok st0 calls with
    | none => simp [engineCount]
    | some p => simp [engineCount]
  · obtain ⟨e, he⟩ := get_or_create_state_after downloaded load_ok st m hd hl
    rw [he]
    simp [get_or_create_engine]
  · rcases hstate : (get_or_create_engine downloaded load_ok st m1).state with _ | ⟨cur, e⟩
    · simp only [get_or_create_engine]
      rw [engine_new_ok downloaded load_ok m2 hd2 hl2]
      exact ⟨rfl, rfl⟩
    · simp only [get_or_create_engine]
      by_cases hc : cur = m2
      · subst hc
        simp [engineCount]
      · rw [if_neg hc, engine_new_ok downloaded load_ok m2 hd2 hl2]
        exact ⟨rfl, rfl⟩

/-- Witness for C3: every model downloadable and loadable, empty slot,
requests Base, Base then Tiny, Small. -/
theorem engine_cache_spec_witness :
    (∀ (calls : List WhisperModel) (st0 : Option (WhisperModel × WhisperEngine)),
      engineCount (run_engine_calls (fun _ => true) (fun _ => true) st0 calls) ≤ 1) ∧
    ((get_or_create_engine (fun _ => true) (fun _ => true)
        (get_or_create_engine (fun _ => true) (fun _ => true) none
          WhisperModel.Base).state WhisperModel.Base).load_attempted = false ∧
      (get_or_create_engine (fun _ => true) (fun _ => true)
        (get_or_create_engine (fun _ => true) (fun _ => true) none
          WhisperModel.Base).state WhisperModel.Base).state =
        (get_or_create_engine (fun _ => true) (fun _ => true) none
          WhisperModel.Base).state ∧
      (get_or_create_engine (fun _ => true) (fun _ => true)
        (get_or_create_engine (fun _ => true) (fun _ => true) none
          WhisperModel.Base).state WhisperModel.Base).result = .ok ()) ∧
    ((get_or_create_engine (fun _ => true) (fun _ => true)
        (get_or_create_engine (fun _ => true) (fun _ => true) none
          WhisperModel.Tiny).state WhisperModel.Small).state.map Prod.fst =
        some WhisperModel.Small ∧
      engineCount (get_or_create_engine (fun _ => true) (fun _ => true)
        (get_or_create_engine (fun _ => true) (fun _ => true) none
          WhisperModel.Tiny).state WhisperModel.Small).state = 1) :=
  engine_cache_spec (fun _ => true) (fun _ => true) none
    WhisperModel.Base WhisperModel.Tiny WhisperModel.Small
    rfl rfl (by intro h; cases h) rfl rfl

theorem adjust_tag_eq_format_round (speed : ℚ) (h m s : ℕ) :
    adjust_tag speed h m s =
      format_timestamp_ms (roundHalfUp ((tag_to_ms h m s : ℚ) * speed)) := by
  have hcast : ((((h : ℤ) * 3600 + (m : ℤ) * 60 + (s : ℤ)) * 1000 : ℤ) : ℚ) =
      (((h * 3600 + m * 60 + s) * 1000 : ℕ) : ℚ) := by
    push_cast
    ring
  simp only [adjust_tag, format_timestamp_ms, tag_to_ms]
  rw [hcast]

/-- C1: with timestamps requested and a speed factor above 1.01, the
post-processing rewrites every two-digit [HH:MM:SS] tag in place (leaving
everything else unchanged) into the tag formatted from round(T * S), where
T is the tag's value in milliseconds; at the claim's examples, 60000 ms at
1.5x is reported as 90000 ms ([00:01:30]) and 120000 ms at 2.0x as
240000 ms ([00:04:00]). -/
theorem timestamp_speed_roundtrip (speed : ℚ) (text : List TextToken)
    (hs : 101/100 < speed) :
    (apply_timestamp_speed_fixup speed true text).length = text.length ∧
    (∀ (i h m s : ℕ), text[i]? = some (TextToken.tag h m s) → h < 100 → m < 100 → s < 100 →
      (apply_timestamp_speed_fixup speed true text)[i]? =
        some (format_timestamp_ms (roundHalfUp ((tag_to_ms h m s : ℚ) * speed)))) ∧
    (∀ (i : ℕ) (str : String), text[i]? = some (TextToken.plain str) →
      (apply_timestamp_speed_fixup speed true text)[i]? = some (TextToken.plain str)) ∧
    adjust_timestamp_for_speed 60000 (3/2) = 90000 ∧
    adjust_timestamp_for_speed 120000 2 = 240000 ∧
    adjust_tag (3/2) 0 1 0 = .tag 0 1 30 ∧
    adjust_tag 2 0 2 0 = .tag 0 4 0 := by
  have hfix : apply_timestamp_speed_fixup speed true text =
      adjust_timestamps_in_text speed text := by
    unfold apply_timestamp_speed_fixup
    rw [if_pos ⟨hs, rfl⟩]
  refine ⟨?_, ?_, ?_, ?_, ?_, ?_, ?_⟩
  · rw [hfix]
    unfold adjust_timestamps_in_text
    rw [List.length_map]
  · intro i h m s hi hh hm hsx
    rw [hfix]
    unfold adjust_timestamps_in_text
    rw [List.getElem?_map, hi]
    simp only [Option.map_some']
    rw [if_pos ⟨hh, hm, hsx⟩, adjust_tag_eq_format_round]
  · intro i str hi
    rw [hfix]
    unfold adjust_timestamps_in_text
    rw [List.getElem?_map, hi]
    rfl
  · unfold adjust_timestamp_for_speed roundHalfUp
    norm_num
  · unfold adjust_timestamp_for_speed roundHalfUp
    norm_num
  · simp only [adjust_tag, roundHalfUp]
    norm_num
    decide
  · simp only [adjust_tag, roundHalfUp]
    norm_num
    decide

/-- Witness for C1 at speed 1.5 on a text holding the single tag
[00:01:00]. -/
theorem timestamp_speed_roundtrip_witness :
    (apply_timestamp_speed_fixup (3/2) true [TextToken.tag 0 1 0]).length =
      [TextToken.tag 0 1 0].length ∧
    (∀ (i h m s : ℕ), [TextToken.tag 0 1 0][i]? = some (TextToken.tag h m s) →
      h < 100 → m < 100 → s < 100 →
      (apply_timestamp_speed_fixup (3/2) true [TextToken.tag 0 1 0])[i]? =
        some (format_timestamp_ms (roundHalfUp ((tag_to_ms h m s : ℚ) * (3/2))))) ∧
    (∀ (i : ℕ) (str : String), [TextToken.tag 0 1 0][i]? = some (TextToken.plain str) →
      (apply_timestamp_speed_fixup (3/2) true [TextToken.tag 0 1 0])[i]? =
        some (TextToken.plain str)) ∧
    adjust_timestamp_for_speed 60000 (3/2) = 90000 ∧
    adjust_timestamp_for_speed 120000 2 = 240000 ∧
    adjust_tag (3/2) 0 1 0 = .tag 0 1 30 ∧
    adjust_tag 2 0 2 0 = .tag 0 4 0 :=
  timestamp_speed_roundtrip (3/2) [TextToken.tag 0 1 0] (by norm_num)

/-- C6 (amended): the chunk loop consults no cancellation signal — an error
it returns is always a Whisper-wrapped segment failure and never Cancelled,
and when every chunk's segment transcription succeeds it processes every
chunk in order, one text per chunk. -/
theorem chunked_loop_runs_every_chunk (seg : List ℚ → ℤ → Except String String)
    (chunks : List (List ℚ)) (i : ℕ) :
    (∀ e, transcribe_chunks_loop seg chunks i = .error e →
      e ≠ .Cancelled ∧ ∃ msg, e = .Whisper msg) ∧
    ((∀ j c, chunks[j]? = some c → ∃ t, seg c (((i + j : ℕ) : ℤ) * 60000) = .ok t) →
      ∃ texts, transcribe_chunks_loop seg chunks i = .ok texts ∧
        texts.length = chunks.length) := by
  induction chunks generalizing i with
  | nil =>
    constructor
    · intro e he
      simp [transcribe_chunks_loop] at he
    · intro _
      exact ⟨[], rfl, rfl⟩
  | cons c rest ih =>
    constructor
    · intro e he
      unfold transcribe_chunks_loop at he
      cases hseg : seg c ((i : ℤ) * 60000) with
      | error msg =>
        rw [hseg] at he
        simp only [Except.error.injEq] at he
        subst he
        exact ⟨(by intro hcontra; cases hcontra), ⟨msg, rfl⟩⟩
      | ok t =>
        rw [hseg] at he
        cases hrec : transcribe_chunks_loop seg rest (i + 1) with
        | error err =>
          rw [hrec] at he
          simp only [Except.error.injEq] at he
          subst he
          exact (ih (i + 1)).1 _ hrec
        | ok texts =>
          rw [hrec] at he
          cases he
    · intro hall
      obtain ⟨t, ht⟩ := hall 0 c (by simp)
      have ht0 : seg c ((i : ℤ) * 60000) = .ok t := by
        simpa using ht
      obtain ⟨texts, htexts, hlen⟩ := (ih (i + 1)).2 (by
        intro j cj hj
        obtain ⟨tj, htj⟩ := hall (j + 1) cj (by simpa using hj)
        refine ⟨tj, ?_⟩
        have harr : i + 1 + j = i + (j + 1) := by omega
        rw [harr]
        exact htj)
      refine ⟨t :: texts, ?_, by simp [hlen]⟩
      unfold transcribe_chunks_loop
      rw [ht0, htexts]

/-- C6 counterexample: a two-chunk run in which, per the claim, a set
cancellation signal should yield a Cancelled outcome before the second
chunk — yet the loop (which reads no signal) transcribes both chunks and
returns Ok, and its result is not the Cancelled error. -/
theorem chunked_loop_cancellation_counterexample :
    transcribe_chunks_loop (fun _ _ => .ok "texto") ([[0], [1]] : List (List ℚ)) 0 =
      .ok ["texto", "texto"] ∧
    transcribe_chunks_loop (fun _ _ => .ok "texto") ([[0], [1]] : List (List ℚ)) 0 ≠
      .error AudioInkError.Cancelled := by
  constructor
  · rfl
  · intro hcontra
    rw [show transcribe_chunks_loop (fun _ _ => .ok "texto")
        ([[0], [1]] : List (List ℚ)) 0 = .ok ["texto", "texto"] from rfl] at hcontra
    exact Except.noConfusion hcontra

end AudioInk
